import Mathlib

/-!
Shallow embedding of `DeepLearningEnginesCode/Python/Ch08_VariationalAutoencoder/main.py`
(a PyTorch variational autoencoder) over the real numbers.

Tensors of shape `[N, D]` are embedded as functions `Fin N → Fin D → ℝ`.
The PyTorch library primitives used by the source (`torch.sigmoid`, `F.relu`,
`nn.Linear`, `F.binary_cross_entropy` with sum reduction) are embedded by their
documented mathematical definitions.  Randomness (`torch.randn_like`,
`torch.manual_seed`) is embedded by passing the drawn noise tensor explicitly:
a fixed random seed corresponds to a fixed, reproducible stream of noise
tensors and batch order.  The autodiff substrate and the optimizer are external
collaborators of the program; the training loop is therefore parametric in the
parameter-update step, and a concrete gradient-descent step built from exact
derivatives is provided for concrete runs.
-/

noncomputable section

/-- torch.sigmoid, elementwise: x ↦ 1 / (1 + exp (-x)). -/
def sigmoid (x : ℝ) : ℝ := 1 / (1 + Real.exp (-x))

/-- F.relu, elementwise: x ↦ max x 0. -/
def relu (x : ℝ) : ℝ := max x 0

/-- nn.Linear with weight `W : Fin p → Fin q → ℝ` and bias `b`, applied to a
vector `v : Fin q → ℝ`: the affine map `v ↦ W v + b`. -/
def linearLayer {p q : ℕ} (W : Fin p → Fin q → ℝ) (b : Fin p → ℝ)
    (v : Fin q → ℝ) : Fin p → ℝ :=
  fun o => (∑ i, W o i * v i) + b o

/-- ZDIMS = 20, the number of latent variables in the reference instance. -/
def ZDIMS : ℕ := 20

/-- The VAE module: the five linear layers of the source class `VAE`
(fc1 : D → H, fc21 : H → Z for the mean, fc22 : H → Z for the log-variance,
fc3 : Z → H, fc4 : H → D), together with the `training` attribute that every
`nn.Module` carries (set by `model.train()` / `model.eval()`).  The source
instance has D = 784, H = 400, Z = ZDIMS = 20; the dimensions are parameters
here so that statements range over every shape. -/
@[ext]
structure VAE (D H Z : ℕ) where
  fc1w : Fin H → Fin D → ℝ
  fc1b : Fin H → ℝ
  fc21w : Fin Z → Fin H → ℝ
  fc21b : Fin Z → ℝ
  fc22w : Fin Z → Fin H → ℝ
  fc22b : Fin Z → ℝ
  fc3w : Fin H → Fin Z → ℝ
  fc3b : Fin H → ℝ
  fc4w : Fin D → Fin H → ℝ
  fc4b : Fin D → ℝ
  training : Bool

/-- VAE.encode: `h1 = relu(fc1 x); return fc21 h1, fc22 h1`, applied per batch
row.  Returns the pair (mu, logvar), both of shape [N, Z]. -/
def VAE.encode {D H Z N : ℕ} (m : VAE D H Z) (x : Fin N → Fin D → ℝ) :
    (Fin N → Fin Z → ℝ) × (Fin N → Fin Z → ℝ) :=
  let h1 : Fin N → Fin H → ℝ := fun n j => relu (linearLayer m.fc1w m.fc1b (x n) j)
  (fun n => linearLayer m.fc21w m.fc21b (h1 n),
   fun n => linearLayer m.fc22w m.fc22b (h1 n))

/-- VAE.reparameterize: in training mode (`self.training` true) return
`eps.mul(std).add_(mu)` with `std = torch.exp(0.5 * logvar)` and `eps` the
standard-normal draw `torch.randn_like(std)` (passed explicitly here);
otherwise return `mu` unchanged. -/
def VAE.reparameterize {D H Z N : ℕ} (m : VAE D H Z)
    (mu logvar eps : Fin N → Fin Z → ℝ) : Fin N → Fin Z → ℝ :=
  if m.training then
    fun n j => eps n j * Real.exp (0.5 * logvar n j) + mu n j
  else
    mu

/-- VAE.decode: `h3 = relu(fc3 z); return torch.sigmoid(fc4 h3)`, per batch
row. -/
def VAE.decode {D H Z N : ℕ} (m : VAE D H Z) (z : Fin N → Fin Z → ℝ) :
    Fin N → Fin D → ℝ :=
  fun n d =>
    sigmoid (linearLayer m.fc4w m.fc4b (fun j => relu (linearLayer m.fc3w m.fc3b (z n) j)) d)

/-- VAE.forward: encode, reparameterize, decode; returns
(reconstruction, mu, logvar).  The noise tensor drawn inside
`reparameterize` is passed explicitly. -/
def VAE.forward {D H Z N : ℕ} (m : VAE D H Z) (x : Fin N → Fin D → ℝ)
    (eps : Fin N → Fin Z → ℝ) :
    (Fin N → Fin D → ℝ) × (Fin N → Fin Z → ℝ) × (Fin N → Fin Z → ℝ) :=
  let ml := m.encode x
  let z := m.reparameterize ml.1 ml.2 eps
  (m.decode z, ml.1, ml.2)

/-- F.binary_cross_entropy(recon, x, reduction = sum), by its documented
formula: the sum over every element of −(x·log(recon) + (1−x)·log(1−recon)). -/
def binaryCrossEntropySum {N D : ℕ} (recon x : Fin N → Fin D → ℝ) : ℝ :=
  ∑ n, ∑ d, -(x n d * Real.log (recon n d) + (1 - x n d) * Real.log (1 - recon n d))

/-- The KLD line of `loss_function`:
`KLD = 0.5 * torch.sum(1 + logvar - mu.pow(2) - logvar.exp())`. -/
def KLDterm {N Z : ℕ} (mu logvar : Fin N → Fin Z → ℝ) : ℝ :=
  0.5 * ∑ n, ∑ j, (1 + logvar n j - (mu n j) ^ 2 - Real.exp (logvar n j))

/-- loss_function of the source:
`BCE = -F.binary_cross_entropy(recon_x, x, reduction = sum)`,
`KLD = 0.5 * torch.sum(1 + logvar - mu.pow(2) - logvar.exp())`,
`ELBO = BCE + KLD`, return `-ELBO`.  No division by the batch size occurs. -/
def loss_function {N D Z : ℕ} (recon_x x : Fin N → Fin D → ℝ)
    (mu logvar : Fin N → Fin Z → ℝ) : ℝ :=
  let BCE := -(binaryCrossEntropySum recon_x x)
  let KLD := KLDterm mu logvar
  let ELBO := BCE + KLD;
  -ELBO

/-- A training or test batch as yielded by the data loader: the batch size,
the flattened input rows, and the standard-normal noise tensor drawn for this
batch inside the sampler (made explicit; a fixed random seed fixes both the
batch order and this noise stream). -/
structure Batch (D Z : ℕ) where
  N : ℕ
  data : Fin N → Fin D → ℝ
  eps : Fin N → Fin Z → ℝ

/-- The loss of one batch: run the forward pass of the model on the batch and
apply loss_function, exactly as the loop body
`recon_batch, mu, logvar = model(data); loss = loss_function(recon_batch, data, mu, logvar)`. -/
def batchLoss {D H Z : ℕ} (m : VAE D H Z) (b : Batch D Z) : ℝ :=
  let f := m.forward b.data b.eps
  loss_function f.1 b.data f.2.1 f.2.2

/-- model.train(): set the training attribute of the module. -/
def trainModel {D H Z : ℕ} (m : VAE D H Z) : VAE D H Z := { m with training := true }

/-- model.eval(): clear the training attribute of the module. -/
def evalModel {D H Z : ℕ} (m : VAE D H Z) : VAE D H Z := { m with training := false }

/-- The batch loop of `train`, parametric in the external optimizer/autodiff
collaborator `step` (zero_grad, loss.backward() and optimizer.step() fused:
from the current parameters and the batch, produce the updated parameters).
Per batch, in source order: compute the loss at the current parameters,
overwrite the running scalar `train_loss` with loss / len(data), apply the
optimizer step, and append `train_loss` to the history `train_losses`.
Returns the final model, the history list and the final value of
`train_loss`. -/
def trainLoop {D H Z : ℕ} (step : VAE D H Z → Batch D Z → VAE D H Z) :
    List (Batch D Z) → VAE D H Z → List ℝ → ℝ → VAE D H Z × List ℝ × ℝ
  | [], m, hist, tl => (m, hist, tl)
  | b :: rest, m, hist, _ =>
    let loss := batchLoss m b
    let tl := loss / (b.N : ℝ);
    trainLoop step rest (step m b) (hist ++ [tl]) tl

/-- train(epoch): model.train(), train_loss = 0, then the batch loop over the
shuffled training batches. -/
def train {D H Z : ℕ} (step : VAE D H Z → Batch D Z → VAE D H Z)
    (m : VAE D H Z) (hist : List ℝ) (bs : List (Batch D Z)) :
    VAE D H Z × List ℝ × ℝ :=
  trainLoop step bs (trainModel m) hist 0

/-- test(epoch): model.eval(), accumulate loss_function over the held-out
batches (test_loss starts at 0), then divide by len(test_loader.dataset) —
the number of examples in the held-out dataset, which equals the sum of the
batch sizes since the loader iterates the whole dataset. -/
def test {D H Z : ℕ} (m : VAE D H Z) (bs : List (Batch D Z)) : ℝ :=
  (List.foldl (fun a b => a + batchLoss (evalModel m) b) 0 bs) /
    ((bs.map Batch.N).sum : ℝ)

/-- Stated from the specification words, for comparison with `trainLoop`: the
recorded loss sequence of one epoch has one scalar per processed batch, namely
the loss of that batch under the parameters current when it was processed,
divided by the size of that batch. -/
def epochLosses {D H Z : ℕ} (step : VAE D H Z → Batch D Z → VAE D H Z) :
    VAE D H Z → List (Batch D Z) → List ℝ
  | _, [] => []
  | m, b :: rest => (batchLoss m b / (b.N : ℝ)) :: epochLosses step (step m b) rest

/-- Stated from the specification words, for comparison with `test`: the
evaluation loss of one batch with sampling noise disabled, i.e. with the
latent sample equal to the mean returned by the encoder. -/
def evalBatchLossSpec {D H Z : ℕ} (m : VAE D H Z) (b : Batch D Z) : ℝ :=
  let p := m.encode b.data
  loss_function (m.decode p.1) b.data p.1 p.2

/-- The parameter tensors of the model, gathered as one tuple (every field
except the training attribute). -/
def VAE.params {D H Z : ℕ} (m : VAE D H Z) :=
  (m.fc1w, m.fc1b, m.fc21w, m.fc21b, m.fc22w, m.fc22b, m.fc3w, m.fc3b, m.fc4w, m.fc4b)

/-- The all-zero-parameter model at dimensions D = H = Z = 1, with the given
mode flag; used for concrete instances. -/
def zeroVAE (t : Bool) : VAE 1 1 1 :=
  ⟨fun _ _ => 0, fun _ => 0, fun _ _ => 0, fun _ => 0, fun _ _ => 0, fun _ => 0,
   fun _ _ => 0, fun _ => 0, fun _ _ => 0, fun _ => 0, t⟩

/-- The model at dimensions D = H = Z = 1 whose parameters are all zero except
the decoder output bias fc4b, which is c; used for concrete runs. -/
def mFC4 (c : ℝ) (t : Bool) : VAE 1 1 1 := { zeroVAE t with fc4b := fun _ => c }

/-- Modelled from the spec: the external tensor/autodiff substrate and the
first-order optimizer (the specification lists automatic differentiation and a
stochastic optimizer applying parameter updates from gradients as external
collaborators, with optimizer internals out of scope).  Plain gradient descent
with exact partial derivatives stands in for the adaptive-moment optimizer:
every scalar parameter p is updated to p − lr · ∂(batch loss)/∂p, the partial
derivative taken at the current parameters.  Defined at the dimensions
D = H = Z = 1 used by the concrete runs, where every layer holds a single
weight and a single bias. -/
def gdStep (lr : ℝ) (m : VAE 1 1 1) (b : Batch 1 1) : VAE 1 1 1 where
  fc1w := fun _ _ =>
    m.fc1w 0 0 - lr * deriv (fun t => batchLoss { m with fc1w := fun _ _ => t } b) (m.fc1w 0 0)
  fc1b := fun _ =>
    m.fc1b 0 - lr * deriv (fun t => batchLoss { m with fc1b := fun _ => t } b) (m.fc1b 0)
  fc21w := fun _ _ =>
    m.fc21w 0 0 - lr * deriv (fun t => batchLoss { m with fc21w := fun _ _ => t } b) (m.fc21w 0 0)
  fc21b := fun _ =>
    m.fc21b 0 - lr * deriv (fun t => batchLoss { m with fc21b := fun _ => t } b) (m.fc21b 0)
  fc22w := fun _ _ =>
    m.fc22w 0 0 - lr * deriv (fun t => batchLoss { m with fc22w := fun _ _ => t } b) (m.fc22w 0 0)
  fc22b := fun _ =>
    m.fc22b 0 - lr * deriv (fun t => batchLoss { m with fc22b := fun _ => t } b) (m.fc22b 0)
  fc3w := fun _ _ =>
    m.fc3w 0 0 - lr * deriv (fun t => batchLoss { m with fc3w := fun _ _ => t } b) (m.fc3w 0 0)
  fc3b := fun _ =>
    m.fc3b 0 - lr * deriv (fun t => batchLoss { m with fc3b := fun _ => t } b) (m.fc3b 0)
  fc4w := fun _ _ =>
    m.fc4w 0 0 - lr * deriv (fun t => batchLoss { m with fc4w := fun _ _ => t } b) (m.fc4w 0 0)
  fc4b := fun _ =>
    m.fc4b 0 - lr * deriv (fun t => batchLoss { m with fc4b := fun _ => t } b) (m.fc4b 0)
  training := m.training

/-- The concrete one-example batch used by the concrete runs: one input row
with pixel value 0, with noise draw 0, at D = Z = 1. -/
def b0 : Batch 1 1 := ⟨1, fun _ _ => 0, fun _ _ => 0⟩

end

/-- Claim C1: for every batch of reconstructions, inputs, means and
log-variances, `loss_function` returns exactly the negation of the ELBO, where
the ELBO is the Bernoulli log-likelihood sum over all D·N scalar pairs of
x·log(x̂) + (1−x)·log(1−x̂) plus the KL term
0.5 · Σ(1 + logvar − mu² − exp(logvar)) summed over latent dims and batch, with
no normalization by batch size applied inside the loss function. -/
theorem loss_function_is_neg_elbo {N D Z : ℕ} (recon_x x : Fin N → Fin D → ℝ)
    (mu logvar : Fin N → Fin Z → ℝ) :
    loss_function recon_x x mu logvar =
      -((∑ n, ∑ d, (x n d * Real.log (recon_x n d) +
            (1 - x n d) * Real.log (1 - recon_x n d)))
        + 0.5 * ∑ n, ∑ j, (1 + logvar n j - (mu n j) ^ 2 - Real.exp (logvar n j))) := by
  unfold loss_function binaryCrossEntropySum KLDterm
  simp only [Finset.sum_neg_distrib, neg_neg]

/-- Claim C4: the KL term 0.5 · Σ(1 + logvar − mean² − exp(logvar)) evaluates
to exactly 0 when mean = 0 and logvar = 0 for every element, for every batch
size N and latent dimension Z; in particular for N = 5, Z = 3. -/
theorem kld_zero_at_standard_prior :
    (∀ N Z : ℕ, KLDterm (N := N) (Z := Z) (fun _ _ => 0) (fun _ _ => 0) = 0) ∧
    KLDterm (N := 5) (Z := 3) (fun _ _ => 0) (fun _ _ => 0) = 0 := by
  constructor
  · intro N Z
    simp [KLDterm, Real.exp_zero]
  · simp [KLDterm, Real.exp_zero]

/-- Claim C2: for every (mean, logvar) pair, the sampler in training mode
returns z = eps · exp(0.5 · logvar) + mean where eps is the standard-normal
draw of the same shape, and in inference mode returns mean exactly,
deterministically, with no noise added. -/
theorem reparameterize_mode_behavior {D H Z N : ℕ} (m : VAE D H Z)
    (mu logvar eps : Fin N → Fin Z → ℝ) :
    (m.training = true →
      ∀ n j, m.reparameterize mu logvar eps n j =
        eps n j * Real.exp (0.5 * logvar n j) + mu n j) ∧
    (m.training = false → m.reparameterize mu logvar eps = mu) := by
  constructor
  · intro h n j
    simp [VAE.reparameterize, h]
  · intro h
    simp [VAE.reparameterize, h]

/-- Claim C3: for every finite latent input z (including a 64-row batch of
prior draws at the reference dimensions D = 784, H = 400, Z = ZDIMS), every
element of the decoder output lies strictly between 0 and 1, because the final
activation is a sigmoid. -/
theorem decode_output_in_open_unit_interval :
    (∀ (D H Z N : ℕ) (m : VAE D H Z) (z : Fin N → Fin Z → ℝ) (n : Fin N) (d : Fin D),
      0 < m.decode z n d ∧ m.decode z n d < 1) ∧
    (∀ (m : VAE 784 400 ZDIMS) (z : Fin 64 → Fin ZDIMS → ℝ) (n : Fin 64) (d : Fin 784),
      0 < m.decode z n d ∧ m.decode z n d < 1) := by
  have key : ∀ x : ℝ, 0 < sigmoid x ∧ sigmoid x < 1 := by
    intro x
    unfold sigmoid
    have hpos : (0 : ℝ) < Real.exp (-x) := Real.exp_pos _
    have hden : (0 : ℝ) < 1 + Real.exp (-x) := by linarith
    constructor
    · exact div_pos one_pos hden
    · rw [div_lt_one hden]
      linarith
  constructor
  · intro D H Z N m z n d
    exact key _
  · intro m z n d
    exact key _

/-- Helper: the history returned by the batch loop is the incoming history
with the per-batch normalized losses of this epoch appended. -/
theorem trainLoop_hist {D H Z : ℕ} (step : VAE D H Z → Batch D Z → VAE D H Z)
    (bs : List (Batch D Z)) : ∀ (m : VAE D H Z) (hist : List ℝ) (tl : ℝ),
    (trainLoop step bs m hist tl).2.1 = hist ++ epochLosses step m bs := by
  induction bs with
  | nil => intro m hist tl; simp [trainLoop, epochLosses]
  | cons b rest ih =>
    intro m hist tl
    simp only [trainLoop, epochLosses, ih, List.append_assoc, List.singleton_append]

/-- Helper: the model returned by the batch loop is the fold of the optimizer
step over the batches. -/
theorem trainLoop_model {D H Z : ℕ} (step : VAE D H Z → Batch D Z → VAE D H Z)
    (bs : List (Batch D Z)) : ∀ (m : VAE D H Z) (hist : List ℝ) (tl : ℝ),
    (trainLoop step bs m hist tl).1 = List.foldl step m bs := by
  induction bs with
  | nil => intro m hist tl; simp [trainLoop]
  | cons b rest ih => intro m hist tl; simp only [trainLoop, ih, List.foldl_cons]

/-- Helper: one recorded loss per batch. -/
theorem epochLosses_length {D H Z : ℕ} (step : VAE D H Z → Batch D Z → VAE D H Z)
    (bs : List (Batch D Z)) : ∀ m : VAE D H Z,
    (epochLosses step m bs).length = bs.length := by
  induction bs with
  | nil => intro m; simp [epochLosses]
  | cons b rest ih => intro m; simp [epochLosses, ih]

/-- Helper: the final value of the running scalar after a loop that ends with
batch b is the normalized loss of b under the parameters reached before b. -/
theorem trainLoop_tl_concat {D H Z : ℕ} (step : VAE D H Z → Batch D Z → VAE D H Z)
    (bs : List (Batch D Z)) (b : Batch D Z) :
    ∀ (m : VAE D H Z) (hist : List ℝ) (tl : ℝ),
    (trainLoop step (bs ++ [b]) m hist tl).2.2 =
      batchLoss (List.foldl step m bs) b / (b.N : ℝ) := by
  induction bs with
  | nil => intro m hist tl; simp [trainLoop]
  | cons c rest ih =>
    intro m hist tl
    simp only [List.cons_append, trainLoop, List.append_eq, ih, List.foldl_cons]

/-- Helper: the recorded sequence of an epoch ending with batch b ends with
the normalized loss of b. -/
theorem epochLosses_concat {D H Z : ℕ} (step : VAE D H Z → Batch D Z → VAE D H Z)
    (bs : List (Batch D Z)) (b : Batch D Z) : ∀ m : VAE D H Z,
    epochLosses step m (bs ++ [b]) =
      epochLosses step m bs ++ [batchLoss (List.foldl step m bs) b / (b.N : ℝ)] := by
  induction bs with
  | nil => intro m; simp [epochLosses]
  | cons c rest ih =>
    intro m
    simp only [List.cons_append, epochLosses, List.append_eq, ih, List.foldl_cons,
      List.singleton_append]

/-- Helper: a left fold of additions equals the starting value plus the sum of
the mapped list. -/
theorem foldl_add_eq_sum {α : Type} (f : α → ℝ) (l : List α) : ∀ a : ℝ,
    List.foldl (fun a x => a + f x) a l = a + (l.map f).sum := by
  induction l with
  | nil => intro a; simp
  | cons x rest ih => intro a; simp [ih]; ring

/-- Helper: in evaluation mode the batch loss is the noiseless loss described
by the specification, computed with the latent sample equal to the mean. -/
theorem batchLoss_evalModel {D H Z : ℕ} (m : VAE D H Z) (b : Batch D Z) :
    batchLoss (evalModel m) b = evalBatchLossSpec m b := rfl

/-- Witness for reparameterize_mode_behavior at a concrete model, mean 3,
log-variance 0 and noise 2. -/
theorem reparameterize_mode_behavior_witness :
    (zeroVAE true).training = true ∧
    (zeroVAE true).reparameterize ((fun _ _ => (3 : ℝ)) : Fin 1 → Fin 1 → ℝ)
      (fun _ _ => 0) (fun _ _ => 2) 0 0 = 2 * Real.exp (0.5 * 0) + 3 ∧
    (zeroVAE false).training = false ∧
    (zeroVAE false).reparameterize ((fun _ _ => (3 : ℝ)) : Fin 1 → Fin 1 → ℝ)
      (fun _ _ => 0) (fun _ _ => 2) = fun _ _ => (3 : ℝ) :=
  ⟨rfl, (reparameterize_mode_behavior (zeroVAE true) _ _ _).1 rfl 0 0, rfl,
   (reparameterize_mode_behavior (zeroVAE false) _ _ _).2 rfl⟩

/-- Claim C5: during training the loss history is append-only and receives
exactly one scalar entry per processed batch, equal to the loss of that batch
divided by the size of that batch; hence an epoch of 4 batches of 4 examples
each (16 examples, batch size 4) records exactly 4 entries. -/
theorem train_records_one_loss_per_batch {D H Z : ℕ}
    (step : VAE D H Z → Batch D Z → VAE D H Z) (m : VAE D H Z)
    (hist : List ℝ) (bs : List (Batch D Z)) :
    (train step m hist bs).2.1 = hist ++ epochLosses step (trainModel m) bs ∧
    (epochLosses step (trainModel m) bs).length = bs.length ∧
    (∀ (x1 x2 x3 x4 : Fin 4 → Fin D → ℝ) (e1 e2 e3 e4 : Fin 4 → Fin Z → ℝ),
      (train step m hist [⟨4, x1, e1⟩, ⟨4, x2, e2⟩, ⟨4, x3, e3⟩, ⟨4, x4, e4⟩]).2.1.length
        = hist.length + 4) := by
  refine ⟨trainLoop_hist step bs (trainModel m) hist 0,
          epochLosses_length step bs (trainModel m), ?_⟩
  intro x1 x2 x3 x4 e1 e2 e3 e4
  rw [train, trainLoop_hist]
  simp [epochLosses_length]

/-- Claim C6: during an evaluation pass the sampler noise is disabled (the
training attribute is cleared and the sampler returns the mean), the loss is
accumulated over the entire held-out set, and the reported value is the
accumulated loss divided by the number of examples in the held-out dataset. -/
theorem test_eval_normalized {D H Z : ℕ} (m : VAE D H Z) (bs : List (Batch D Z)) :
    (evalModel m).training = false ∧
    (∀ (N : ℕ) (mu logvar eps : Fin N → Fin Z → ℝ),
      (evalModel m).reparameterize mu logvar eps = mu) ∧
    test m bs = (bs.map (evalBatchLossSpec m)).sum / ((bs.map Batch.N).sum : ℝ) := by
  refine ⟨rfl, ?_, ?_⟩
  · intro N mu logvar eps
    simp [VAE.reparameterize, evalModel]
  · rw [test, foldl_add_eq_sum]
    simp only [zero_add]
    rw [show batchLoss (evalModel m) = evalBatchLossSpec m from
      funext fun b => batchLoss_evalModel m b]

/-- Claim C9: the parameter tensors of the model are mutated only by the
optimizer step inside the training loop — the model returned by the loop is
exactly the fold of the optimizer step over the batches, independent of the
logging state — and switching the module between training and evaluation mode
(as the forward/evaluation passes do) leaves every parameter tensor
unchanged. -/
theorem params_mutated_only_by_step {D H Z : ℕ}
    (step : VAE D H Z → Batch D Z → VAE D H Z) (bs : List (Batch D Z))
    (m : VAE D H Z) (hist : List ℝ) (tl : ℝ) :
    (trainLoop step bs m hist tl).1 = List.foldl step m bs ∧
    (evalModel m).params = m.params ∧ (trainModel m).params = m.params := by
  exact ⟨trainLoop_model step bs m hist tl, rfl, rfl⟩

/-- Claim C10: the per-epoch summary value printed at the end of training is
the final value of the running scalar train_loss, which is overwritten each
batch: for every epoch whose batch list ends with a batch b, it equals the
loss of b (under the parameters reached before b) divided by the size of b,
i.e. the last recorded per-batch loss — not an accumulated mean. -/
theorem epoch_summary_is_last_batch_loss {D H Z : ℕ}
    (step : VAE D H Z → Batch D Z → VAE D H Z) (m : VAE D H Z)
    (hist : List ℝ) (bs : List (Batch D Z)) (b : Batch D Z) :
    (train step m hist (bs ++ [b])).2.2 =
      batchLoss (List.foldl step (trainModel m) bs) b / (b.N : ℝ) ∧
    (epochLosses step (trainModel m) (bs ++ [b])).getLast? =
      some ((train step m hist (bs ++ [b])).2.2) := by
  constructor
  · exact trainLoop_tl_concat step bs b (trainModel m) hist 0
  · rw [train, trainLoop_tl_concat, epochLosses_concat]
    exact List.getLast?_concat _

/-- Counterexample to claim C7 as stated: the sampler does not take the mode
as an explicit flag in its call interface — reparameterize(self, mu, logvar)
reads the mode from the training attribute of the model object, so two model
objects with identical parameter tensors, called with identical
(mean, logvar, noise) arguments, return different outputs. -/
theorem reparameterize_reads_model_state_counterexample :
    (zeroVAE true).params = (zeroVAE false).params ∧
    (zeroVAE true).reparameterize ((fun _ _ => (1 : ℝ)) : Fin 1 → Fin 1 → ℝ)
        (fun _ _ => 0) (fun _ _ => 1) 0 0 ≠
      (zeroVAE false).reparameterize ((fun _ _ => (1 : ℝ)) : Fin 1 → Fin 1 → ℝ)
        (fun _ _ => 0) (fun _ _ => 1) 0 0 := by
  refine ⟨rfl, ?_⟩
  norm_num [VAE.reparameterize, zeroVAE, Real.exp_zero]

/-- Claim C7 amended: the sampler reads the training/inference mode from the
training attribute of the model object rather than from an explicit flag in
its call interface; given that attribute, its output is a pure function of
(mean, logvar, mode attribute) and the noise draw — it does not depend on any
other component of the model state. -/
theorem reparameterize_depends_only_on_mode_attribute {D H Z N : ℕ}
    (m m2 : VAE D H Z) (mu logvar eps : Fin N → Fin Z → ℝ)
    (h : m.training = m2.training) :
    m.reparameterize mu logvar eps = m2.reparameterize mu logvar eps := by
  simp only [VAE.reparameterize, h]

/-- Witness for reparameterize_depends_only_on_mode_attribute: two concrete
models agreeing on the mode attribute but differing in a parameter tensor. -/
theorem reparameterize_depends_only_on_mode_attribute_witness :
    (zeroVAE true).training = ({ zeroVAE true with fc1b := fun _ => 5 } : VAE 1 1 1).training ∧
    (zeroVAE true).reparameterize ((fun _ _ => (3 : ℝ)) : Fin 1 → Fin 1 → ℝ)
        (fun _ _ => 0) (fun _ _ => 2) =
      ({ zeroVAE true with fc1b := fun _ => 5 } : VAE 1 1 1).reparameterize
        ((fun _ _ => (3 : ℝ)) : Fin 1 → Fin 1 → ℝ) (fun _ _ => 0) (fun _ _ => 2) :=
  ⟨rfl, reparameterize_depends_only_on_mode_attribute _ _ _ _ _ rfl⟩

/-- Claim C8 amended: re-running one epoch from the same parameter state with
the same random seed — hence the same batch order and the same noise draws —
appends the identical loss sequence to the history, regardless of what was
recorded before: the recorded epoch sequence is a function of the initial
parameters, the optimizer step and the seeded batch/noise stream only. -/
theorem train_losses_reproducible {D H Z : ℕ}
    (step : VAE D H Z → Batch D Z → VAE D H Z) (m : VAE D H Z)
    (h1 h2 : List ℝ) (bs : List (Batch D Z)) :
    (train step m h1 bs).2.1.drop h1.length = (train step m h2 bs).2.1.drop h2.length := by
  rw [train, train, trainLoop_hist, trainLoop_hist, List.drop_left, List.drop_left]

/-- Helper: closed form of the batch loss on the concrete batch b0 for a model
whose only nonzero parameter is the decoder output bias c (softplus shape). -/
theorem batchLoss_mFC4 (c : ℝ) (t : Bool) :
    batchLoss (mFC4 c t) b0 = c + Real.log (1 + Real.exp (-c)) := by
  have hden : (0 : ℝ) < 1 + Real.exp (-c) := by positivity
  have hrecon : (1 : ℝ) - (1 + Real.exp (-c))⁻¹ = Real.exp (-c) / (1 + Real.exp (-c)) := by
    field_simp
  cases t <;>
  · simp [batchLoss, VAE.forward, VAE.encode, VAE.decode, VAE.reparameterize, mFC4, zeroVAE,
      linearLayer, relu, sigmoid, loss_function, binaryCrossEntropySum, KLDterm, b0,
      Fin.sum_univ_one, Real.exp_zero]
    rw [hrecon, Real.log_div (Real.exp_ne_zero (-c)) (ne_of_gt hden), Real.log_exp]
    ring

/-- Helper: at the all-zero parameters on batch b0, the batch loss is constant
in the fc1w weight (the input pixel is 0), so its derivative vanishes. -/
theorem deriv_fc1w_zero :
    deriv (fun t => batchLoss { zeroVAE true with fc1w := fun _ _ => t } b0) 0 = 0 := by
  have h : (fun t : ℝ => batchLoss { zeroVAE true with fc1w := fun _ _ => t } b0)
      = fun _ => batchLoss (zeroVAE true) b0 := by
    funext t
    simp [batchLoss, VAE.forward, VAE.encode, VAE.decode, VAE.reparameterize, zeroVAE,
      linearLayer, relu, sigmoid, loss_function, binaryCrossEntropySum, KLDterm, b0,
      Fin.sum_univ_one, Real.exp_zero]
  rw [h]
  exact deriv_const _ _

/-- Helper: at the all-zero parameters on batch b0, the batch loss is constant
in the fc1b bias (its influence is cut off by the zero fc21/fc22 weights). -/
theorem deriv_fc1b_zero :
    deriv (fun t => batchLoss { zeroVAE true with fc1b := fun _ => t } b0) 0 = 0 := by
  have h : (fun t : ℝ => batchLoss { zeroVAE true with fc1b := fun _ => t } b0)
      = fun _ => batchLoss (zeroVAE true) b0 := by
    funext t
    simp [batchLoss, VAE.forward, VAE.encode, VAE.decode, VAE.reparameterize, zeroVAE,
      linearLayer, relu, sigmoid, loss_function, binaryCrossEntropySum, KLDterm, b0,
      Fin.sum_univ_one, Real.exp_zero]
  rw [h]
  exact deriv_const _ _

/-- Helper: at the all-zero parameters on batch b0, the batch loss is constant
in the fc21w weight (the hidden activation is 0). -/
theorem deriv_fc21w_zero :
    deriv (fun t => batchLoss { zeroVAE true with fc21w := fun _ _ => t } b0) 0 = 0 := by
  have h : (fun t : ℝ => batchLoss { zeroVAE true with fc21w := fun _ _ => t } b0)
      = fun _ => batchLoss (zeroVAE true) b0 := by
    funext t
    simp [batchLoss, VAE.forward, VAE.encode, VAE.decode, VAE.reparameterize, zeroVAE,
      linearLayer, relu, sigmoid, loss_function, binaryCrossEntropySum, KLDterm, b0,
      Fin.sum_univ_one, Real.exp_zero]
  rw [h]
  exact deriv_const _ _

/-- Helper: at the all-zero parameters on batch b0, the batch loss is constant
in the fc22w weight (the hidden activation is 0). -/
theorem deriv_fc22w_zero :
    deriv (fun t => batchLoss { zeroVAE true with fc22w := fun _ _ => t } b0) 0 = 0 := by
  have h : (fun t : ℝ => batchLoss { zeroVAE true with fc22w := fun _ _ => t } b0)
      = fun _ => batchLoss (zeroVAE true) b0 := by
    funext t
    simp [batchLoss, VAE.forward, VAE.encode, VAE.decode, VAE.reparameterize, zeroVAE,
      linearLayer, relu, sigmoid, loss_function, binaryCrossEntropySum, KLDterm, b0,
      Fin.sum_univ_one, Real.exp_zero]
  rw [h]
  exact deriv_const _ _

/-- Helper: at the all-zero parameters on batch b0, the batch loss is constant
in the fc3w weight (the latent sample is 0). -/
theorem deriv_fc3w_zero :
    deriv (fun t => batchLoss { zeroVAE true with fc3w := fun _ _ => t } b0) 0 = 0 := by
  have h : (fun t : ℝ => batchLoss { zeroVAE true with fc3w := fun _ _ => t } b0)
      = fun _ => batchLoss (zeroVAE true) b0 := by
    funext t
    simp [batchLoss, VAE.forward, VAE.encode, VAE.decode, VAE.reparameterize, zeroVAE,
      linearLayer, relu, sigmoid, loss_function, binaryCrossEntropySum, KLDterm, b0,
      Fin.sum_univ_one, Real.exp_zero]
  rw [h]
  exact deriv_const _ _

/-- Helper: at the all-zero parameters on batch b0, the batch loss is constant
in the fc3b bias (its influence is cut off by the zero fc4 weight). -/
theorem deriv_fc3b_zero :
    deriv (fun t => batchLoss { zeroVAE true with fc3b := fun _ => t } b0) 0 = 0 := by
  have h : (fun t : ℝ => batchLoss { zeroVAE true with fc3b := fun _ => t } b0)
      = fun _ => batchLoss (zeroVAE true) b0 := by
    funext t
    simp [batchLoss, VAE.forward, VAE.encode, VAE.decode, VAE.reparameterize, zeroVAE,
      linearLayer, relu, sigmoid, loss_function, binaryCrossEntropySum, KLDterm, b0,
      Fin.sum_univ_one, Real.exp_zero]
  rw [h]
  exact deriv_const _ _

/-- Helper: at the all-zero parameters on batch b0, the batch loss is constant
in the fc4w weight (the decoder hidden activation is 0). -/
theorem deriv_fc4w_zero :
    deriv (fun t => batchLoss { zeroVAE true with fc4w := fun _ _ => t } b0) 0 = 0 := by
  have h : (fun t : ℝ => batchLoss { zeroVAE true with fc4w := fun _ _ => t } b0)
      = fun _ => batchLoss (zeroVAE true) b0 := by
    funext t
    simp [batchLoss, VAE.forward, VAE.encode, VAE.decode, VAE.reparameterize, zeroVAE,
      linearLayer, relu, sigmoid, loss_function, binaryCrossEntropySum, KLDterm, b0,
      Fin.sum_univ_one, Real.exp_zero]
  rw [h]
  exact deriv_const _ _

/-- Helper: at the all-zero parameters on batch b0, the batch loss as a
function of the fc21b mean bias is log 2 + t²/2, whose derivative at 0 is 0. -/
theorem deriv_fc21b_zero :
    deriv (fun t => batchLoss { zeroVAE true with fc21b := fun _ => t } b0) 0 = 0 := by
  have h : (fun t : ℝ => batchLoss { zeroVAE true with fc21b := fun _ => t } b0)
      = fun t => Real.log 2 + t ^ 2 / 2 := by
    funext t
    simp [batchLoss, VAE.forward, VAE.encode, VAE.decode, VAE.reparameterize, zeroVAE,
      linearLayer, relu, sigmoid, loss_function, binaryCrossEntropySum, KLDterm, b0,
      Fin.sum_univ_one, Real.exp_zero]
    norm_num
    rw [one_div, Real.log_inv]
    ring
  rw [h]
  have hd : HasDerivAt (fun t : ℝ => Real.log 2 + t ^ 2 / 2) (2 * (0:ℝ) ^ 1 / 2) 0 :=
    ((hasDerivAt_pow 2 (0:ℝ)).div_const 2).const_add (Real.log 2)
  rw [hd.deriv]
  norm_num

/-- Helper: at the all-zero parameters on batch b0, the batch loss as a
function of the fc22b log-variance bias is log 2 − (1 + t − exp t)/2, whose
derivative at 0 is 0. -/
theorem deriv_fc22b_zero :
    deriv (fun t => batchLoss { zeroVAE true with fc22b := fun _ => t } b0) 0 = 0 := by
  have h : (fun t : ℝ => batchLoss { zeroVAE true with fc22b := fun _ => t } b0)
      = fun t => Real.log 2 - (1 + t - Real.exp t) / 2 := by
    funext t
    simp [batchLoss, VAE.forward, VAE.encode, VAE.decode, VAE.reparameterize, zeroVAE,
      linearLayer, relu, sigmoid, loss_function, binaryCrossEntropySum, KLDterm, b0,
      Fin.sum_univ_one, Real.exp_zero]
    norm_num
    rw [one_div, Real.log_inv]
    ring
  rw [h]
  have hd : HasDerivAt (fun t : ℝ => Real.log 2 - (1 + t - Real.exp t) / 2)
      (-((1 - Real.exp 0) / 2)) 0 :=
    ((((hasDerivAt_id (0:ℝ)).const_add 1).sub (Real.hasDerivAt_exp 0)).div_const 2).const_sub
      (Real.log 2)
  rw [hd.deriv]
  norm_num [Real.exp_zero]

/-- Helper: at the all-zero parameters on batch b0, the batch loss as a
function of the fc4b decoder bias is t + log(1 + exp(−t)), whose derivative at
0 is 1/2 (the reconstruction error of the half-gray output). -/
theorem deriv_fc4b_half :
    deriv (fun t => batchLoss { zeroVAE true with fc4b := fun _ => t } b0) 0 = 1 / 2 := by
  have h : (fun t : ℝ => batchLoss { zeroVAE true with fc4b := fun _ => t } b0)
      = fun t => t + Real.log (1 + Real.exp (-t)) :=
    funext fun t => batchLoss_mFC4 t true
  rw [h]
  have hne : (1 : ℝ) + Real.exp (-(0:ℝ)) ≠ 0 := by positivity
  have hd : HasDerivAt (fun t : ℝ => t + Real.log (1 + Real.exp (-t)))
      (1 + (Real.exp (-(0:ℝ)) * -1) / (1 + Real.exp (-(0:ℝ)))) 0 :=
    (hasDerivAt_id 0).add ((((hasDerivAt_id (0:ℝ)).neg.exp).const_add 1).log hne)
  rw [hd.deriv]
  norm_num [Real.exp_zero]

/-- Helper: one gradient-descent step with learning rate 2 from the all-zero
parameters on batch b0 moves only the decoder output bias, to −1; every other
partial derivative vanishes there. -/
theorem gdStep_at_zero : gdStep 2 (zeroVAE true) b0 = mFC4 (-1) true := by
  apply VAE.ext
  · funext i j
    have e : (gdStep 2 (zeroVAE true) b0).fc1w i j
        = 0 - 2 * deriv (fun t => batchLoss { zeroVAE true with fc1w := fun _ _ => t } b0) 0 := rfl
    rw [e, deriv_fc1w_zero]
    norm_num [mFC4, zeroVAE]
  · funext i
    have e : (gdStep 2 (zeroVAE true) b0).fc1b i
        = 0 - 2 * deriv (fun t => batchLoss { zeroVAE true with fc1b := fun _ => t } b0) 0 := rfl
    rw [e, deriv_fc1b_zero]
    norm_num [mFC4, zeroVAE]
  · funext i j
    have e : (gdStep 2 (zeroVAE true) b0).fc21w i j
        = 0 - 2 * deriv (fun t => batchLoss { zeroVAE true with fc21w := fun _ _ => t } b0) 0 := rfl
    rw [e, deriv_fc21w_zero]
    norm_num [mFC4, zeroVAE]
  · funext i
    have e : (gdStep 2 (zeroVAE true) b0).fc21b i
        = 0 - 2 * deriv (fun t => batchLoss { zeroVAE true with fc21b := fun _ => t } b0) 0 := rfl
    rw [e, deriv_fc21b_zero]
    norm_num [mFC4, zeroVAE]
  · funext i j
    have e : (gdStep 2 (zeroVAE true) b0).fc22w i j
        = 0 - 2 * deriv (fun t => batchLoss { zeroVAE true with fc22w := fun _ _ => t } b0) 0 := rfl
    rw [e, deriv_fc22w_zero]
    norm_num [mFC4, zeroVAE]
  · funext i
    have e : (gdStep 2 (zeroVAE true) b0).fc22b i
        = 0 - 2 * deriv (fun t => batchLoss { zeroVAE true with fc22b := fun _ => t } b0) 0 := rfl
    rw [e, deriv_fc22b_zero]
    norm_num [mFC4, zeroVAE]
  · funext i j
    have e : (gdStep 2 (zeroVAE true) b0).fc3w i j
        = 0 - 2 * deriv (fun t => batchLoss { zeroVAE true with fc3w := fun _ _ => t } b0) 0 := rfl
    rw [e, deriv_fc3w_zero]
    norm_num [mFC4, zeroVAE]
  · funext i
    have e : (gdStep 2 (zeroVAE true) b0).fc3b i
        = 0 - 2 * deriv (fun t => batchLoss { zeroVAE true with fc3b := fun _ => t } b0) 0 := rfl
    rw [e, deriv_fc3b_zero]
    norm_num [mFC4, zeroVAE]
  · funext i j
    have e : (gdStep 2 (zeroVAE true) b0).fc4w i j
        = 0 - 2 * deriv (fun t => batchLoss { zeroVAE true with fc4w := fun _ _ => t } b0) 0 := rfl
    rw [e, deriv_fc4w_zero]
    norm_num [mFC4, zeroVAE]
  · funext i
    have e : (gdStep 2 (zeroVAE true) b0).fc4b i
        = 0 - 2 * deriv (fun t => batchLoss { zeroVAE true with fc4b := fun _ => t } b0) 0 := rfl
    rw [e, deriv_fc4b_half]
    norm_num [mFC4, zeroVAE]
  · rfl

/-- Helper: the concrete first epoch — gradient descent with learning rate 2
from the zero model on the single batch b0 — records the loss sequence
[log 2] and ends at the model with decoder bias −1. -/
theorem run1_eq :
    train (gdStep 2) (zeroVAE false) [] [b0] = (mFC4 (-1) true, [Real.log 2], Real.log 2) := by
  have hmT : trainModel (zeroVAE false) = zeroVAE true := rfl
  have hl : batchLoss (zeroVAE true) b0 = Real.log 2 := by
    have h := batchLoss_mFC4 0 true
    have hm : mFC4 0 true = zeroVAE true := rfl
    rw [hm] at h
    rw [h]
    norm_num [Real.exp_zero]
  show trainLoop (gdStep 2) [b0] (trainModel (zeroVAE false)) [] 0 = _
  rw [hmT]
  simp [trainLoop, hl, gdStep_at_zero, show b0.N = 1 from rfl]

/-- Helper: the normalized loss of the second concrete epoch differs from that
of the first, because exp 1 is not 1. -/
theorem log_one_add_exp_one_ne : (-1 : ℝ) + Real.log (1 + Real.exp 1) ≠ Real.log 2 := by
  intro hEq
  have hpos : (0 : ℝ) < 1 + Real.exp 1 := by positivity
  have h2 : Real.log (1 + Real.exp 1) = Real.log 2 + 1 := by linarith
  have h3 := congrArg Real.exp h2
  rw [Real.exp_log hpos, Real.exp_add, Real.exp_log (by norm_num : (0:ℝ) < 2)] at h3
  have h4 : (1 : ℝ) + 1 ≤ Real.exp 1 := by
    have := Real.add_one_le_exp (1 : ℝ)
    linarith
  linarith

/-- Counterexample to claim C8 as stated: after training for one epoch (the
concrete run: zero initial parameters, one batch b0, the gradient-descent step
with learning rate 2), running a second epoch of the training loop with the
same random seed — the identical batch order and noise draws — records a loss
sequence different from the first epoch, because the optimizer step changed
the parameters. -/
theorem second_epoch_losses_differ_counterexample :
    ((train (gdStep 2)
        (train (gdStep 2) (zeroVAE false) [] [b0]).1
        (train (gdStep 2) (zeroVAE false) [] [b0]).2.1 [b0]).2.1).drop
      (train (gdStep 2) (zeroVAE false) [] [b0]).2.1.length
    ≠ (train (gdStep 2) (zeroVAE false) [] [b0]).2.1 := by
  rw [run1_eq]
  have hmT : trainModel (mFC4 (-1) true) = mFC4 (-1) true := rfl
  have hl : batchLoss (mFC4 (-1) true) b0 = -1 + Real.log (1 + Real.exp 1) := by
    have h := batchLoss_mFC4 (-1) true
    rw [h]
    norm_num
  show (trainLoop (gdStep 2) [b0] (trainModel (mFC4 (-1) true)) [Real.log 2] 0).2.1.drop 1
    ≠ [Real.log 2]
  rw [hmT]
  simp [trainLoop, hl, show b0.N = 1 from rfl]
  exact log_one_add_exp_one_ne
